import Mathlib

/-!
Verification of the `static_sqlite` compile-time SQL-to-accessor generator.

The development shallowly embeds the parts of the repository the claims
touch:

* the migration routine emitted by `migrate_fn`
  (src/static_sqlite_macros/src/lib.rs),
* the classifier `split_exprs` / `is_ddl`,
* the type-hint parser `parse_type_hinted_column_name` and the
  nullability decisions of `struct_tokens` / `fn_tokens`,
* the schema-model fold `db_schema` (src/static_sqlite_macros/src/schema.rs),
* the driver helpers `Sqlite::query_first`, `Sqlite::finalize_statement`,
  `Sqlite::execute` and the `Value` conversions
  (src/static_sqlite_core/src/ffi.rs).

Rust strings are embedded as Lean `String`; `Vec<T>` as `List`;
`i64` as `Int`; fallible code (including `panic!`/`todo!`) as `Except`.
-/

/-! ## Migration routine (generated by `migrate_fn`)

The `sql!` macro emits, for the migration expression, a function that

1. creates `__migrations__ (sql text primary key not null)` if absent;
2. splits the migration literal on `";"` and keeps the pieces that are
   not whitespace-only (`!s.trim().is_empty()`);
3. for each piece computes the whitespace-free fingerprint
   (`stmt.chars().filter(|c| !c.is_whitespace())`), runs
   `insert into __migrations__ (sql) values (:sql) on conflict (sql) do
   nothing`, and executes the original piece only when that insert
   changed a row.

Modelled from the spec: the runtime SQLite database the routine runs
against is external to the crate.  Following §4.8 and §6 ("Persisted
layout"), `__migrations__` is modelled as the list of inserted
fingerprints (the conflict-do-nothing insert changes a row exactly when
the fingerprint is new), and executing a DDL statement is modelled by
appending its text to the `applied` log, of which the observable schema
is a function.  Execution failure of a statement is modelled by a
failure oracle `fails`; the generated code propagates such an error
(`?`) immediately. -/

/-- State of one database as seen by the migration routine:
the contents of `__migrations__` and the log of DDL statements that
were actually executed against the database. -/
structure MigState where
  migrations : List String
  applied : List String
deriving DecidableEq, Repr

/-- A database no migration has ever touched. -/
def freshDb : MigState := ⟨[], []⟩

/-- `stmt.chars().filter(|c| !c.is_whitespace()).collect()` -/
def fingerprint (s : String) : String := ⟨s.data.filter (fun c => !c.isWhitespace)⟩

/-- Splitting a string on the character `';'`, as Rust `sql.split(";")`. -/
def splitSemi : List Char → List (List Char)
  | [] => [[]]
  | ';' :: rest => [] :: splitSemi rest
  | c :: rest =>
    match splitSemi rest with
    | [] => [[c]]
    | chunk :: chunks => (c :: chunk) :: chunks

/-- `!s.trim().is_empty()`: the piece contains a non-whitespace character. -/
def nonBlank (s : String) : Bool := s.data.any (fun c => !c.isWhitespace)

/-- `sql.split(";").filter(|s| !s.trim().is_empty())` -/
def splitStatements (sql : String) : List String :=
  ((splitSemi sql.data).map (fun cs => String.mk cs)).filter nonBlank

/-- The loop body sequence of the generated migration function: for each
statement, insert its fingerprint into `__migrations__` (no-op when
already present) and execute the statement only when the insert changed
a row.  A failing execution aborts the run (`?`), returning the failing
statement together with the database state at that moment (the
bookkeeping insert has already happened). -/
def runStmts (fails : String → Bool) : List String → MigState → Except (String × MigState) MigState
  | [], st => .ok st
  | stmt :: rest, st =>
    if st.migrations.contains (fingerprint stmt) then
      runStmts fails rest st
    else
      let st1 : MigState := { st with migrations := st.migrations ++ [fingerprint stmt] }
      if fails stmt then .error (stmt, st1)
      else runStmts fails rest { st1 with applied := st1.applied ++ [stmt] }

/-- The generated migration routine applied to one database. -/
def applyMigrations (fails : String → Bool) (sql : String) (st : MigState) :
    Except (String × MigState) MigState :=
  runStmts fails (splitStatements sql) st

/-- The database state after a run, successful or aborted. -/
def resultState : Except (String × MigState) MigState → MigState
  | .ok st => st
  | .error (_, st) => st

/-- Failure oracle of a run in which every DDL statement succeeds. -/
def noFail : String → Bool := fun _ => false

/-! ### Lemmas about the migration routine -/

theorem runStmts_migrations_mono (f : String → Bool) (l : List String) :
    ∀ (st : MigState) (m : String), m ∈ st.migrations →
      m ∈ (resultState (runStmts f l st)).migrations := by
  induction l with
  | nil => intro st m hm; simpa [runStmts, resultState] using hm
  | cons stmt rest ih =>
    intro st m hm
    unfold runStmts
    split_ifs with hc hf
    · exact ih st m hm
    · exact List.mem_append_left _ hm
    · exact ih _ m (List.mem_append_left _ hm)

theorem runStmts_noFail_ok (l : List String) (st : MigState) :
    runStmts noFail l st = .ok (resultState (runStmts noFail l st)) := by
  induction l generalizing st with
  | nil => simp [runStmts, resultState]
  | cons stmt rest ih =>
    unfold runStmts
    split_ifs with hc hf
    · exact ih st
    · exact absurd hf (by simp [noFail])
    · exact ih _

theorem runStmts_fingerprint_mem (l : List String) :
    ∀ (st : MigState) (s : String), s ∈ l →
      fingerprint s ∈ (resultState (runStmts noFail l st)).migrations := by
  induction l with
  | nil => intro st s hs; cases hs
  | cons stmt rest ih =>
    intro st s hs
    unfold runStmts
    split_ifs with hc hf
    · rcases List.mem_cons.mp hs with hs | hs
      · subst hs
        exact runStmts_migrations_mono noFail rest st _ (List.elem_iff.mp hc)
      · exact ih st s hs
    · exact absurd hf (by simp [noFail])
    · rcases List.mem_cons.mp hs with hs | hs
      · subst hs
        exact runStmts_migrations_mono noFail rest _ _
          (List.mem_append_right _ (List.mem_singleton.mpr rfl))
      · exact ih _ s hs

theorem runStmts_all_present (f : String → Bool) (l : List String) :
    ∀ (st : MigState), (∀ s ∈ l, fingerprint s ∈ st.migrations) →
      runStmts f l st = .ok st := by
  induction l with
  | nil => intro st _; rfl
  | cons stmt rest ih =>
    intro st hall
    unfold runStmts
    split_ifs with hc hf
    · exact ih st (fun s hs => hall s (List.mem_cons_of_mem _ hs))
    · exact absurd (List.elem_iff.mpr (hall stmt (List.mem_cons_self _ _))) hc
    · exact absurd (List.elem_iff.mpr (hall stmt (List.mem_cons_self _ _))) hc

/-- Invariant: the fingerprints of the statements ever executed are
pairwise distinct and all recorded in `__migrations__`. -/
def MigInv (st : MigState) : Prop :=
  (st.applied.map fingerprint).Nodup ∧
    ∀ s ∈ st.applied, fingerprint s ∈ st.migrations

theorem runStmts_preserves_inv (f : String → Bool) (l : List String) :
    ∀ (st : MigState), MigInv st → MigInv (resultState (runStmts f l st)) := by
  induction l with
  | nil => intro st h; simpa [runStmts, resultState] using h
  | cons stmt rest ih =>
    intro st h
    unfold runStmts
    split_ifs with hc hf
    · exact ih st h
    · exact ⟨h.1, fun s hs => List.mem_append_left _ (h.2 s hs)⟩
    · apply ih
      refine ⟨?_, ?_⟩
      · rw [List.map_append, List.map_singleton]
        apply List.Nodup.append h.1 (List.nodup_singleton _)
        intro x hx hx'
        rw [List.mem_singleton] at hx'
        subst hx'
        rcases List.mem_map.mp hx with ⟨s, hs, hfp⟩
        exact hc (List.elem_iff.mpr (hfp ▸ h.2 s hs))
      · intro s hs
        rcases List.mem_append.mp hs with hs | hs
        · exact List.mem_append_left _ (h.2 s hs)
        · rw [List.mem_singleton] at hs
          subst hs
          exact List.mem_append_right _ (List.mem_singleton.mpr rfl)

theorem runStmts_error_inv (f : String → Bool) (l : List String) :
    ∀ (st : MigState) (s : String) (st' : MigState),
      st.migrations = st.applied.map fingerprint →
      runStmts f l st = .error (s, st') →
      st'.migrations = st'.applied.map fingerprint ++ [fingerprint s]
        ∧ fingerprint s ∉ st'.applied.map fingerprint := by
  induction l with
  | nil => intro st s st' _ h; simp [runStmts] at h
  | cons stmt rest ih =>
    intro st s st' hq h
    unfold runStmts at h
    split_ifs at h with hc hf
    · exact ih st s st' hq h
    · rw [Except.error.injEq, Prod.mk.injEq] at h
      rcases h with ⟨rfl, rfl⟩
      refine ⟨by simpa using hq, ?_⟩
      intro hmem
      exact hc (List.elem_iff.mpr (hq ▸ hmem))
    · exact ih _ s st' (by simp [hq]) h

theorem runStmts_count_preserved (g : String → Bool) (l : List String) :
    ∀ (st : MigState) (fp : String), fp ∈ st.migrations →
      (resultState (runStmts g l st)).applied.countP (fun t => fingerprint t == fp)
        = st.applied.countP (fun t => fingerprint t == fp) := by
  induction l with
  | nil => intro st fp _; simp [runStmts, resultState]
  | cons stmt rest ih =>
    intro st fp hfp
    unfold runStmts
    split_ifs with hc hf
    · exact ih st fp hfp
    · rfl
    · rw [ih _ fp (List.mem_append_left _ hfp)]
      have hne : fingerprint stmt ≠ fp := fun h => hc (List.elem_iff.mpr (h ▸ hfp))
      have hb : (fingerprint stmt == fp) = false := beq_eq_false_iff_ne.mpr hne
      simp [List.countP_append, List.countP_cons, hb]

/-- C1: for any DDL statement sequence in the migration literal, running
the generated migration routine a second time against a database that
was fresh before the first run leaves the state — hence the observable
schema — unchanged, and the whitespace-free fingerprints of the DDL
statements ever executed are pairwise distinct, i.e. each statement is
executed at most once: a statement runs only when the insert of its
fingerprint into `__migrations__` actually changed a row. -/
theorem migrate_twice_eq_once (sql : String) :
    applyMigrations noFail sql (resultState (applyMigrations noFail sql freshDb))
      = .ok (resultState (applyMigrations noFail sql freshDb))
    ∧ ((resultState (applyMigrations noFail sql freshDb)).applied.map fingerprint).Nodup := by
  constructor
  · apply runStmts_all_present
    intro s hs
    exact runStmts_fingerprint_mem (splitStatements sql) freshDb s hs
  · exact (runStmts_preserves_inv noFail (splitStatements sql) freshDb
      ⟨by simp [freshDb], by simp [freshDb]⟩).1

/-- A statement that fails when executed, for the C2 counterexample. -/
def failBadStmt : String → Bool := fun s => s == "bad stmt"

/-- A two-statement migration literal whose second statement fails. -/
def migSqlEx : String := "create table t (x integer);bad stmt"

/-- The database state after the aborted first run of `migSqlEx`:
both fingerprints are recorded in `__migrations__`, but only the first
statement was executed. -/
def errStEx : MigState :=
  ⟨["createtablet(xinteger)", "badstmt"], ["create table t (x integer)"]⟩

/-- C2 counterexample: when the second statement of `migSqlEx` fails,
the aborted run leaves `__migrations__` holding the failed statement's
fingerprint as well — not "exactly the fingerprints of the statements
that were successfully applied" — and a subsequent (fully succeeding)
run leaves the state unchanged: the failed statement is skipped, not
retried. -/
theorem migrate_failed_stmt_not_retried_cex :
    applyMigrations failBadStmt migSqlEx freshDb = .error ("bad stmt", errStEx)
    ∧ errStEx.migrations ≠ errStEx.applied.map fingerprint
    ∧ resultState (applyMigrations noFail migSqlEx errStEx) = errStEx := by
  refine ⟨by rfl, by decide, by rfl⟩

/-- C2 (amended): if the generated migration routine fails partway
through, `__migrations__` holds the fingerprints of the successfully
applied prefix **plus** the fingerprint of the failed statement
(because the bookkeeping insert precedes the DDL), and no subsequent
run ever executes the failed statement again: its fingerprint is
already recorded, so the insert changes no row and the statement is
skipped. -/
theorem migrate_failure_bookkeeping (f g : String → Bool) (sql sql₂ s : String)
    (st' : MigState)
    (h : applyMigrations f sql freshDb = .error (s, st')) :
    st'.migrations = st'.applied.map fingerprint ++ [fingerprint s]
    ∧ fingerprint s ∉ st'.applied.map fingerprint
    ∧ (resultState (applyMigrations g sql₂ st')).applied.countP
        (fun t => fingerprint t == fingerprint s) = 0 := by
  have hinv := runStmts_error_inv f (splitStatements sql) freshDb s st'
    (by simp [freshDb]) h
  refine ⟨hinv.1, hinv.2, ?_⟩
  have hmem : fingerprint s ∈ st'.migrations := by
    rw [hinv.1]
    exact List.mem_append_right _ (List.mem_singleton.mpr rfl)
  unfold applyMigrations
  rw [runStmts_count_preserved g (splitStatements sql₂) st' (fingerprint s) hmem]
  rw [List.countP_eq_zero]
  intro t ht hbeq
  exact hinv.2 (beq_iff_eq.mp hbeq ▸ List.mem_map_of_mem fingerprint ht)

/-- Witness for `migrate_failure_bookkeeping` at the concrete aborted
run of `migSqlEx`. -/
theorem migrate_failure_bookkeeping_witness :
    errStEx.migrations = errStEx.applied.map fingerprint ++ [fingerprint "bad stmt"]
    ∧ fingerprint "bad stmt" ∉ errStEx.applied.map fingerprint
    ∧ (resultState (applyMigrations noFail migSqlEx errStEx)).applied.countP
        (fun t => fingerprint t == fingerprint "bad stmt") = 0 :=
  migrate_failure_bookkeeping failBadStmt noFail migSqlEx migSqlEx "bad stmt" errStEx
    (by rfl)

/-! ## Parsed statements and the classifier

`sqlparser::ast::Statement` is embedded by an inductive with one
constructor per variant the crate's code distinguishes.  `CreateTable`,
`AlterTable` and `Drop` carry the payload `db_schema`
(src/static_sqlite_macros/src/schema.rs) consumes; the remaining
variants matched by `is_ddl` (src/static_sqlite_macros/src/lib.rs,
lines 808-852) are payload-free, as are the data-statement variants
that fall into the catch-all `_ => false` arm. -/

/-- `sqlparser::ast::ColumnDef`, restricted to the fields the schema
fold reads (the column options play no role in any claim here). -/
structure ColumnDef where
  name : String
  dataType : String
deriving DecidableEq, Repr

/-- `sqlparser::ast::AlterTableOperation`, with the four arms
`db_schema` handles plus a catch-all for its `_ => {}` arm. -/
inductive AlterOp
  | addColumn (columnDef : ColumnDef)
  | dropColumn (columnName : String)
  | renameColumn (oldColumnName newColumnName : String)
  | renameTable (tableName : String)
  | otherOp
deriving DecidableEq, Repr

/-- `sqlparser::ast::ObjectType` as matched by `db_schema`'s `Drop` arm. -/
inductive ObjType
  | table
  | otherObject
deriving DecidableEq, Repr

/-- `sqlparser::ast::Statement`. -/
inductive RStatement
  | createTable (name : String) (columns : List ColumnDef)
  | alterTable (name : String) (operations : List AlterOp)
  | dropStmt (objectType : ObjType) (names : List String)
  | createView
  | createVirtualTable
  | createIndex
  | createRole
  | alterIndex
  | alterView
  | alterRole
  | dropFunction
  | createExtension
  | setNamesDefault
  | showFunctions
  | showVariable
  | showVariables
  | showCreate
  | showColumns
  | showTables
  | showCollation
  | useStmt
  | startTransaction
  | setTransaction
  | commentStmt
  | commitStmt
  | rollbackStmt
  | createSchema
  | createDatabase
  | createFunction
  | createProcedure
  | createMacroStmt
  | createStage
  | prepareStmt
  | explainTable
  | explainStmt
  | savepointStmt
  | releaseSavepoint
  | createSequence
  | createType
  | pragmaStmt
  | insert
  | update
  | delete
  | query
  | copyStmt
  | truncate
  | mergeStmt
deriving DecidableEq, Repr

/-- The per-statement DDL/admin test inside `is_ddl`
(src/static_sqlite_macros/src/lib.rs lines 809-851): the listed
variants are `true`, everything else falls to `_ => false`. -/
def isDdlStmt : RStatement → Bool
  | .createView | .createTable _ _ | .createVirtualTable | .createIndex
  | .createRole | .alterTable _ _ | .alterIndex | .alterView | .alterRole
  | .dropStmt _ _ | .dropFunction | .createExtension | .setNamesDefault
  | .showFunctions | .showVariable | .showVariables | .showCreate
  | .showColumns | .showTables | .showCollation | .useStmt
  | .startTransaction | .setTransaction | .commentStmt | .commitStmt
  | .rollbackStmt | .createSchema | .createDatabase | .createFunction
  | .createProcedure | .createMacroStmt | .createStage | .prepareStmt
  | .explainTable | .explainStmt | .savepointStmt | .releaseSavepoint
  | .createSequence | .createType | .pragmaStmt => true
  | _ => false

/-- `SqlExpr`: one `let ident = "sql";` entry of the macro input. -/
structure SqlExprM where
  ident : String
  sql : String
  statements : List RStatement
deriving DecidableEq, Repr

/-- `is_ddl`: every parsed statement of the expression is DDL/admin. -/
def isDdl (expr : SqlExprM) : Bool := expr.statements.all isDdlStmt

/-- `split_exprs` (src/static_sqlite_macros/src/lib.rs lines 358-372):
`iter.find(|expr| is_ddl(expr))` walks the entries until the first
all-DDL one; if none exists the macro reports the "You need a migration
fn" diagnostic, otherwise the first all-DDL entry becomes the migration
expression and only the **remaining** entries (those after it) that are
not all-DDL are kept as query expressions. -/
def splitExprs : List SqlExprM → Except String (SqlExprM × List SqlExprM)
  | [] => .error "You need a migration fn"
  | e :: rest =>
    if isDdl e then .ok (e, rest.filter (fun x => !(isDdl x)))
    else splitExprs rest

/-- A first all-DDL expression for the C3 counterexample. -/
def migExprA : SqlExprM :=
  ⟨"migrate", "create table A (x integer);",
    [.createTable "A" [⟨"x", "INTEGER"⟩]]⟩

/-- A second all-DDL expression in the same block. -/
def migExprB : SqlExprM :=
  ⟨"migrate_two", "create table B (y integer);",
    [.createTable "B" [⟨"y", "INTEGER"⟩]]⟩

/-- A query (non-DDL) expression. -/
def queryExprA : SqlExprM :=
  ⟨"all_rows", "select * from A", [.query]⟩

/-- C3 counterexample: with two all-DDL expressions in the block,
`split_exprs` emits no diagnostic at all — it returns the first as the
migration expression and silently drops the second (the returned query
list is empty). -/
theorem split_exprs_multiple_ddl_cex :
    isDdl migExprA = true ∧ isDdl migExprB = true ∧ migExprA ≠ migExprB
    ∧ splitExprs [migExprA, migExprB] = .ok (migExprA, []) := by
  refine ⟨by decide, by decide, by decide, by rfl⟩

/-- C3 (amended): a diagnostic is emitted exactly when **zero**
expressions are all-DDL.  When one or more are, no diagnostic results:
the first all-DDL expression is returned as the migration expression
and every other all-DDL expression (as well as every expression
preceding the chosen one) is silently dropped — the returned query list
contains only non-DDL expressions. -/
theorem split_exprs_migration_selection (exprs : List SqlExprM) :
    ((∃ msg, splitExprs exprs = .error msg) ↔ ∀ e ∈ exprs, isDdl e = false)
    ∧ (∀ m rest, splitExprs exprs = .ok (m, rest) →
        isDdl m = true ∧ ∀ e ∈ rest, isDdl e = false) := by
  induction exprs with
  | nil =>
    refine ⟨⟨fun _ e he => absurd he (List.not_mem_nil e), fun _ => ⟨_, rfl⟩⟩, ?_⟩
    intro m rest h
    simp [splitExprs] at h
  | cons e rest ih =>
    by_cases he : isDdl e
    · refine ⟨⟨?_, ?_⟩, ?_⟩
      · intro ⟨msg, hmsg⟩
        simp only [splitExprs, he, if_true] at hmsg
        exact Except.noConfusion hmsg
      · intro hall
        exact absurd he (by simpa using hall e (List.mem_cons_self _ _))
      · intro m qs h
        simp only [splitExprs, he, if_true, Except.ok.injEq, Prod.mk.injEq] at h
        rcases h with ⟨rfl, rfl⟩
        refine ⟨he, ?_⟩
        intro x hx
        have := List.of_mem_filter hx
        simpa using this
    · have hrw : splitExprs (e :: rest) = splitExprs rest := by
        simp [splitExprs, he]
      refine ⟨⟨?_, ?_⟩, ?_⟩
      · intro hex x hx
        rcases List.mem_cons.mp hx with rfl | hx
        · simpa using he
        · exact (ih.1.mp (hrw ▸ hex)) x hx
      · intro hall
        exact hrw ▸ ih.1.mpr (fun x hx => hall x (List.mem_cons_of_mem _ hx))
      · intro m qs h
        exact ih.2 m qs (hrw ▸ h)

/-- Witness for `split_exprs_migration_selection`: a block with only a
query expression yields the diagnostic, and the two-migration block
yields the first expression with an empty (hence all-non-DDL) rest. -/
theorem split_exprs_migration_selection_witness :
    (∃ msg, splitExprs [queryExprA] = .error msg)
    ∧ (isDdl migExprA = true ∧ ∀ e ∈ ([] : List SqlExprM), isDdl e = false) :=
  ⟨(split_exprs_migration_selection [queryExprA]).1.mpr (by decide),
   (split_exprs_migration_selection [migExprA, migExprB]).2 migExprA [] (by rfl)⟩

/-! ## Schema rows, type hints and nullability

`SchemaRow` is the introspection row type of
src/static_sqlite_macros/src/lib.rs (lines 298-305); `not_null` and
`pk` are the raw `i64` flags read from `pragma_table_info`.
`parse_type_hinted_column_name` (lines 588-616) classifies a bind
parameter or output alias either as a reference to a schema row or as
a type-hinted token; its `panic!`s are embedded as `Except.error`.
The Rust field `alias` is rendered `aliasName` (`alias` is a Lean
keyword). -/

structure SchemaRow where
  table_name : String
  column_name : String
  column_type : String
  not_null : Int
  pk : Int
deriving DecidableEq, Repr

structure TypeHintedToken where
  name : String
  aliasName : String
  column_type : String
  not_null : Int
deriving DecidableEq, Repr

inductive TypedToken
  | fromTypeHint (hint : TypeHintedToken)
  | fromSchemaRow (row : SchemaRow)
deriving DecidableEq, Repr

/-- Rust `alias.split("__")`: split on non-overlapping occurrences of
the two-character separator, left to right. -/
def splitUU : List Char → List (List Char)
  | [] => [[]]
  | '_' :: '_' :: rest => [] :: splitUU rest
  | c :: rest =>
    match splitUU rest with
    | [] => [[c]]
    | chunk :: chunks => (c :: chunk) :: chunks

/-- `alias.split("__").collect::<Vec<_>>()` as a list of strings. -/
def splitDoubleUnderscore (s : String) : List String :=
  (splitUU s.data).map (fun cs => String.mk cs)

/-- Rust `str::to_lowercase` on the ASCII keywords used by hints. -/
def toLowerStr (s : String) : String := ⟨s.data.map Char.toLower⟩

/-- `parse_type_hinted_column_name(alias, schema_rows)`: one segment
resolves against the schema rows (panicking when the column is
unknown); two segments are `name__TYPE` with `not_null = 1`; three
segments read the nullability keyword case-insensitively; any other
shape panics with "Invalid type hint". -/
def parseTypeHintedColumnName (a : String) (schemaRows : List SchemaRow) :
    Except String TypedToken :=
  match splitDoubleUnderscore a with
  | [_] =>
    match schemaRows.find? (fun row => row.column_name == a) with
    | some row => .ok (.fromSchemaRow row)
    | none => .error ("Column " ++ a ++ " referenced in binding or column not found in schema")
  | [p0, p1] => .ok (.fromTypeHint ⟨p0, a, p1, 1⟩)
  | [p0, p1, p2] =>
    match toLowerStr p2 with
    | "nullable" => .ok (.fromTypeHint ⟨p0, a, p1, 0⟩)
    | "not_null" => .ok (.fromTypeHint ⟨p0, a, p1, 1⟩)
    | _ => .error ("Invalid type hint: " ++ a ++ ", last part must be nullable or not_null")
  | _ => .error ("Invalid type hint: " ++ a)

/-- The `not_null` flag `struct_tokens` reads off a token
(src/static_sqlite_macros/src/lib.rs lines 675-678). -/
def tokenNotNull : TypedToken → Int
  | .fromTypeHint hint => hint.not_null
  | .fromSchemaRow row => row.not_null

/-- The `pk` flag `struct_tokens` reads off a token: literally `0` for
hinted tokens (lines 679-682). -/
def tokenPk : TypedToken → Int
  | .fromTypeHint _ => 0
  | .fromSchemaRow row => row.pk

/-- The `optional` decision of `struct_tokens` (lines 674-687): the
pair `(not_null, pk)` maps `(0,0)` to an `Option` field, the three
other 0/1 combinations to a plain field, and anything else to
`unreachable!()` (embedded as `none`). -/
def structFieldOptional (t : TypedToken) : Option Bool :=
  if tokenNotNull t = 0 ∧ tokenPk t = 0 then some true
  else if (tokenNotNull t = 0 ∧ tokenPk t = 1) ∨ (tokenNotNull t = 1 ∧ tokenPk t = 0)
      ∨ (tokenNotNull t = 1 ∧ tokenPk t = 1) then some false
  else none

/-- The argument-nullability decision of `fn_tokens`
(src/static_sqlite_macros/src/lib.rs lines 434-451): a hinted argument
is `Option`-typed exactly when the hint's `not_null` is `0`; a
schema-row argument exactly when `(pk, not_null) = (0, 0)`. -/
def fnArgOptional : TypedToken → Bool
  | .fromTypeHint hint => hint.not_null == 0
  | .fromSchemaRow row => row.pk == 0 && row.not_null == 0

/-- C4: a 2-segment hint `name__TYPE` yields a non-nullable field and
argument of the hinted type; a 3-segment hint is nullable for keyword
`NULLABLE` and non-nullable for `NOT_NULL`, the keyword read
case-insensitively; four or more segments are a compile error naming
the offending alias. -/
theorem type_hint_shapes (a : String) (rows : List SchemaRow) (p₀ p₁ p₂ : String) :
    (splitDoubleUnderscore a = [p₀, p₁] →
      parseTypeHintedColumnName a rows = .ok (.fromTypeHint ⟨p₀, a, p₁, 1⟩)
      ∧ structFieldOptional (.fromTypeHint ⟨p₀, a, p₁, 1⟩) = some false
      ∧ fnArgOptional (.fromTypeHint ⟨p₀, a, p₁, 1⟩) = false)
    ∧ (splitDoubleUnderscore a = [p₀, p₁, p₂] → toLowerStr p₂ = "nullable" →
      parseTypeHintedColumnName a rows = .ok (.fromTypeHint ⟨p₀, a, p₁, 0⟩)
      ∧ structFieldOptional (.fromTypeHint ⟨p₀, a, p₁, 0⟩) = some true
      ∧ fnArgOptional (.fromTypeHint ⟨p₀, a, p₁, 0⟩) = true)
    ∧ (splitDoubleUnderscore a = [p₀, p₁, p₂] → toLowerStr p₂ = "not_null" →
      parseTypeHintedColumnName a rows = .ok (.fromTypeHint ⟨p₀, a, p₁, 1⟩)
      ∧ structFieldOptional (.fromTypeHint ⟨p₀, a, p₁, 1⟩) = some false
      ∧ fnArgOptional (.fromTypeHint ⟨p₀, a, p₁, 1⟩) = false)
    ∧ (4 ≤ (splitDoubleUnderscore a).length →
      ∃ msg, parseTypeHintedColumnName a rows = .error msg) := by
  refine ⟨?_, ?_, ?_, ?_⟩
  · intro hsplit
    refine ⟨?_, by rfl, by rfl⟩
    simp only [parseTypeHintedColumnName, hsplit]
  · intro hsplit hkw
    refine ⟨?_, by rfl, by rfl⟩
    simp only [parseTypeHintedColumnName, hsplit, hkw]
  · intro hsplit hkw
    refine ⟨?_, by rfl, by rfl⟩
    simp only [parseTypeHintedColumnName, hsplit, hkw]
  · intro hlen
    unfold parseTypeHintedColumnName
    obtain ⟨l, hl⟩ : ∃ l, splitDoubleUnderscore a = l := ⟨_, rfl⟩
    rw [hl] at hlen
    rcases l with _ | ⟨x₀, _ | ⟨x₁, _ | ⟨x₂, _ | ⟨x₃, tl⟩⟩⟩⟩
    · exact ⟨_, by rw [hl]⟩
    · simp at hlen
    · simp at hlen
    · simp at hlen
    · exact ⟨_, by rw [hl]⟩

/-- Witness for `type_hint_shapes` on the aliases `x__INTEGER`,
`y__TEXT__NULLABLE`, `z__REAL__not_null` and `w__a__b__c`. -/
theorem type_hint_shapes_witness :
    (parseTypeHintedColumnName "x__INTEGER" []
        = .ok (.fromTypeHint ⟨"x", "x__INTEGER", "INTEGER", 1⟩)
      ∧ structFieldOptional (.fromTypeHint ⟨"x", "x__INTEGER", "INTEGER", 1⟩) = some false
      ∧ fnArgOptional (.fromTypeHint ⟨"x", "x__INTEGER", "INTEGER", 1⟩) = false)
    ∧ (parseTypeHintedColumnName "y__TEXT__NULLABLE" []
        = .ok (.fromTypeHint ⟨"y", "y__TEXT__NULLABLE", "TEXT", 0⟩)
      ∧ structFieldOptional (.fromTypeHint ⟨"y", "y__TEXT__NULLABLE", "TEXT", 0⟩) = some true
      ∧ fnArgOptional (.fromTypeHint ⟨"y", "y__TEXT__NULLABLE", "TEXT", 0⟩) = true)
    ∧ (parseTypeHintedColumnName "z__REAL__not_null" []
        = .ok (.fromTypeHint ⟨"z", "z__REAL__not_null", "REAL", 1⟩))
    ∧ (∃ msg, parseTypeHintedColumnName "w__a__b__c" [] = .error msg) :=
  ⟨(type_hint_shapes "x__INTEGER" [] "x" "INTEGER" "").1 (by rfl),
   (type_hint_shapes "y__TEXT__NULLABLE" [] "y" "TEXT" "NULLABLE").2.1 (by rfl) (by rfl),
   ((type_hint_shapes "z__REAL__not_null" [] "z" "REAL" "not_null").2.2.1 (by rfl) (by rfl)).1,
   (type_hint_shapes "w__a__b__c" [] "" "" "").2.2.2 (by decide)⟩

/-- C5: a generated field or accessor argument derived from a schema
row is nullable exactly when both raw flags are `0`: the `fn_tokens`
argument is `Option`-typed iff `not_null = 0 ∧ pk = 0`; the
`struct_tokens` field — whenever the `(not_null, pk)` pair is one the
code generates a field for at all — is `Option`-typed under the same
condition; and a primary-key column is never nullable. -/
theorem schema_column_nullability (row : SchemaRow) :
    (fnArgOptional (.fromSchemaRow row) = true ↔ (row.not_null = 0 ∧ row.pk = 0))
    ∧ (∀ b, structFieldOptional (.fromSchemaRow row) = some b →
        (b = true ↔ (row.not_null = 0 ∧ row.pk = 0)))
    ∧ (row.pk ≠ 0 → fnArgOptional (.fromSchemaRow row) = false) := by
  refine ⟨?_, ?_, ?_⟩
  · simp only [fnArgOptional, Bool.and_eq_true, beq_iff_eq]
    exact and_comm
  · intro b hb
    unfold structFieldOptional at hb
    split_ifs at hb with h1 h2
    · rw [Option.some.injEq] at hb
      subst hb
      simpa [tokenNotNull, tokenPk] using h1
    · rw [Option.some.injEq] at hb
      subst hb
      simp only [Bool.false_eq_true, false_iff]
      intro hmem
      exact h1 ⟨hmem.1, hmem.2⟩
  · intro hpk
    have hb : (row.pk == 0) = false := beq_eq_false_iff_ne.mpr hpk
    simp [fnArgOptional, hb]

/-- Witness for `schema_column_nullability`: a plain nullable column
yields an `Option` argument, an `INTEGER PRIMARY KEY` column does not. -/
theorem schema_column_nullability_witness :
    fnArgOptional (.fromSchemaRow ⟨"t", "c", "TEXT", 0, 0⟩) = true
    ∧ fnArgOptional (.fromSchemaRow ⟨"t", "id", "INTEGER", 0, 1⟩) = false :=
  ⟨(schema_column_nullability ⟨"t", "c", "TEXT", 0, 0⟩).1.mpr ⟨rfl, rfl⟩,
   (schema_column_nullability ⟨"t", "id", "INTEGER", 0, 1⟩).2.2 (by decide)⟩

/-! ## Driver errors, `query_first` and accessor kinds -/

/-- `static_sqlite_core::Error` (src/static_sqlite_core/src/ffi.rs
lines 21-41), restricted to the variants that carry no foreign payload
types. -/
inductive SqlError
  | sqlite (msg : String)
  | uniqueConstraint (target : String)
  | connectionClosed
  | rowNotFound
  | tooManyRowsInResult
  | utf8Error
deriving DecidableEq, Repr

/-- `Sqlite::query_first` (src/static_sqlite_core/src/ffi.rs lines
180-193): run the query, then match on the number of returned rows —
`0` is `None`, `1` is `Some(first)`, more is `TooManyRowsInResult`. -/
def queryFirst {α : Type} (rows : List α) : Except SqlError (Option α) :=
  match rows with
  | [] => .ok none
  | [r] => .ok (some r)
  | _ => .error .tooManyRowsInResult

/-- The three accessor shapes of `fn_tokens`
(src/static_sqlite_macros/src/lib.rs lines 398-402). -/
inductive FunctionType
  | queryVec
  | queryOption
  | stream
deriving DecidableEq, Repr

/-- Rust `str::ends_with`. -/
def strEndsWith (s post : String) : Bool := post.data.isSuffixOf s.data

/-- The suffix dispatch of `fn_tokens`
(src/static_sqlite_macros/src/lib.rs lines 476-482): `_stream` wins,
then `_first`, otherwise the plain `Vec` accessor. -/
def fnTypeOf (ident : String) : FunctionType :=
  if strEndsWith ident "_stream" then .stream
  else if strEndsWith ident "_first" then .queryOption
  else .queryVec

theorem strEndsWith_iff (s post : String) :
    strEndsWith s post = true ↔ post.data <:+ s.data := by
  unfold strEndsWith
  rw [show (post.data.isSuffixOf s.data)
      = (post.data.reverse.isPrefixOf s.data.reverse) from rfl]
  rw [List.isPrefixOf_iff_prefix, List.reverse_prefix]

theorem ends_first_not_stream (s : String) (h : strEndsWith s "_first" = true) :
    strEndsWith s "_stream" = false := by
  rw [strEndsWith_iff] at h
  by_contra habs
  rw [Bool.not_eq_false, strEndsWith_iff] at habs
  have hsub : "_first".data <:+ "_stream".data :=
    List.suffix_of_suffix_length_le h habs (by decide)
  exact absurd hsub (by decide)

/-- C6: an accessor whose identifier ends in `_first` is generated with
the optional-row shape, and the underlying `query_first` yields `None`
on zero rows, `Some` on exactly one row, and `TooManyRowsInResult` on
more than one. -/
theorem first_accessor_shape {α : Type} (ident : String) (rows : List α)
    (h : strEndsWith ident "_first" = true) :
    fnTypeOf ident = .queryOption
    ∧ (rows = [] → queryFirst rows = .ok none)
    ∧ (∀ r, rows = [r] → queryFirst rows = .ok (some r))
    ∧ (2 ≤ rows.length → queryFirst rows = .error .tooManyRowsInResult) := by
  refine ⟨?_, ?_, ?_, ?_⟩
  · unfold fnTypeOf
    rw [ends_first_not_stream ident h, h]
    rfl
  · intro hrows; subst hrows; rfl
  · intro r hrows; subst hrows; rfl
  · intro hlen
    rcases rows with _ | ⟨r₀, _ | ⟨r₁, tl⟩⟩
    · simp at hlen
    · simp at hlen
    · rfl

/-- Witness for `first_accessor_shape` at identifier `row_first` with
zero, one and two rows. -/
theorem first_accessor_shape_witness :
    fnTypeOf "row_first" = .queryOption
    ∧ queryFirst ([] : List Nat) = .ok none
    ∧ queryFirst [7] = .ok (some 7)
    ∧ queryFirst [7, 8] = .error .tooManyRowsInResult :=
  ⟨(first_accessor_shape "row_first" ([] : List Nat) (by decide)).1,
   (first_accessor_shape "row_first" ([] : List Nat) (by decide)).2.1 rfl,
   (first_accessor_shape "row_first" [7] (by decide)).2.2.1 7 rfl,
   (first_accessor_shape "row_first" [7, 8] (by decide)).2.2.2 (by decide)⟩

/-! ## Unique-constraint detection on finalize

`Sqlite::finalize_statement` (src/static_sqlite_core/src/ffi.rs lines
240-256) prefix-matches the SQLite error message and reparses the
target; `Sqlite::execute` (lines 119-147) has its own step loop and
inline finalize, both of which build only the generic `Error::Sqlite`.
Rust `str::replace(pat, "")` removes the non-overlapping occurrences
of the pattern left to right; it is embedded for the one fixed pattern
the code uses. -/

/-- The pattern `"UNIQUE constraint failed: "` as a character list. -/
def uniquePat : List Char := "UNIQUE constraint failed: ".data

/-- Rust `str::starts_with` for an arbitrary pattern. -/
def startsWithChars : List Char → List Char → Bool
  | [], _ => true
  | _ :: _, [] => false
  | p :: ps, c :: cs => p == c && startsWithChars ps cs

/-- `error.replace("UNIQUE constraint failed: ", "")`: delete the
occurrences of the 26-character pattern, left to right. -/
def replaceUniqueMsg : List Char → List Char
  | 'U' :: 'N' :: 'I' :: 'Q' :: 'U' :: 'E' :: ' ' :: 'c' :: 'o' :: 'n' :: 's' :: 't'
      :: 'r' :: 'a' :: 'i' :: 'n' :: 't' :: ' ' :: 'f' :: 'a' :: 'i' :: 'l' :: 'e'
      :: 'd' :: ':' :: ' ' :: rest => replaceUniqueMsg rest
  | c :: rest => c :: replaceUniqueMsg rest
  | [] => []

/-- `SQLITE_OK` -/
def sqliteOk : Int := 0

/-- `Sqlite::finalize_statement(db, stmt)`, abstracted over the
finalize return code `rc` and the `sqlite3_errmsg` text. -/
def finalizeStatement (rc : Int) (errmsg : String) : Except SqlError Unit :=
  if rc ≠ sqliteOk then
    if startsWithChars uniquePat errmsg.data then
      .error (.uniqueConstraint (String.mk (replaceUniqueMsg errmsg.data)))
    else
      .error (.sqlite errmsg)
  else
    .ok ()

/-- Outcome of `sqlite3_step`. -/
inductive StepResult
  | row
  | done
  | stepError
deriving DecidableEq, Repr

/-- `Sqlite::execute(sql, params)`, abstracted over the first step
outcome (its loop breaks or returns on every branch of the first
iteration), the inline finalize return code, the `sqlite3_errmsg`
text, and the `sqlite3_changes` count: every error path builds the
generic `Error::Sqlite`, never `UniqueConstraint`. -/
def executeModel (step1 : StepResult) (finalizeRc : Int) (errmsg : String)
    (changes : Int) : Except SqlError Int :=
  match step1 with
  | .row | .done =>
    if finalizeRc ≠ 0 then .error (.sqlite errmsg)
    else .ok changes
  | .stepError => .error (.sqlite errmsg)

/-- The step-error arm of `SqliteIterator::next`
(src/static_sqlite_core/src/ffi.rs lines 682-688): any failing
`sqlite3_step` is returned to the caller as
`Some(Err(Error::Sqlite(errmsg)))` — no prefix match happens there. -/
def iteratorNextStepError (α : Type) (errmsg : String) : Option (Except SqlError α) :=
  some (.error (.sqlite errmsg))

/-- `Drop for SqliteIterator` (src/static_sqlite_core/src/ffi.rs lines
694-700): `let _ = Sqlite::finalize_statement(..)` — the finalize
result, dedicated error or not, is discarded and nothing reaches the
caller. -/
def iteratorDrop (rc : Int) (errmsg : String) : Unit :=
  let _ := finalizeStatement rc errmsg
  ()

/-- A unique-constraint failure message as SQLite reports it. -/
def uniqueMsgEx : String := "UNIQUE constraint failed: Row.id"

/-- C9 counterexample: `Sqlite::execute` is a driver operation that
executes a statement, yet a unique-constraint failure surfaces from it
as the generic `Sqlite` error — both when the step fails and when its
inline finalize fails — while `finalize_statement` (used by
`query`/`rows`) does return the dedicated error with the parsed
target. -/
theorem execute_unique_constraint_cex :
    executeModel .stepError 0 uniqueMsgEx 0 = .error (.sqlite uniqueMsgEx)
    ∧ executeModel .done 19 uniqueMsgEx 0 = .error (.sqlite uniqueMsgEx)
    ∧ finalizeStatement 19 uniqueMsgEx = .error (.uniqueConstraint "Row.id")
    ∧ SqlError.sqlite uniqueMsgEx ≠ SqlError.uniqueConstraint "Row.id" := by
  refine ⟨by rfl, by rfl, by rfl, by decide⟩

/-- C9 (amended): a failing finalize inside `finalize_statement` —
whose result is propagated to the caller by `query` and `rows` —
yields the dedicated `UniqueConstraint` error with the prefix stripped
from the message exactly when the message starts with
`"UNIQUE constraint failed: "`, and the generic `Sqlite` error
otherwise.  Neither `Sqlite::execute` — whose step loop and inline
finalize never prefix-match — nor the row iterator — whose `next`
surfaces step errors as the generic `Sqlite` error and whose `Drop`
discards the `finalize_statement` result — ever yields
`UniqueConstraint`. -/
theorem finalize_unique_constraint_detection (rc : Int) (msg : String)
    (h : rc ≠ 0) :
    (startsWithChars uniquePat msg.data = true →
      finalizeStatement rc msg
        = .error (.uniqueConstraint (String.mk (replaceUniqueMsg msg.data))))
    ∧ (startsWithChars uniquePat msg.data = false →
      finalizeStatement rc msg = .error (.sqlite msg))
    ∧ (∀ (step : StepResult) (frc changes : Int) (m target : String),
      executeModel step frc m changes ≠ .error (.uniqueConstraint target))
    ∧ (∀ (α : Type) (m target : String),
      iteratorNextStepError α m ≠ some (.error (.uniqueConstraint target)))
    ∧ (∀ (frc : Int) (m : String), iteratorDrop frc m = ()) := by
  refine ⟨?_, ?_, ?_, ?_, ?_⟩
  · intro hpre
    unfold finalizeStatement
    rw [if_pos (show rc ≠ sqliteOk from h), if_pos hpre]
  · intro hpre
    unfold finalizeStatement
    rw [if_pos (show rc ≠ sqliteOk from h), if_neg (by simp [hpre])]
  · intro step frc changes m target
    unfold executeModel
    cases step <;> [skip; skip; exact fun habs => by cases habs] <;>
      split_ifs <;> intro habs <;> cases habs
  · intro α m target habs
    simp [iteratorNextStepError] at habs
  · intro frc m
    rfl

/-- Witness for `finalize_unique_constraint_detection` at `rc = 19`
with a matching and a non-matching message. -/
theorem finalize_unique_constraint_detection_witness :
    finalizeStatement 19 uniqueMsgEx
      = .error (.uniqueConstraint (String.mk (replaceUniqueMsg uniqueMsgEx.data)))
    ∧ finalizeStatement 19 "no such table: Row" = .error (.sqlite "no such table: Row")
    ∧ executeModel .stepError 0 uniqueMsgEx 0 ≠ .error (.uniqueConstraint "Row.id")
    ∧ iteratorNextStepError Unit uniqueMsgEx ≠ some (.error (.uniqueConstraint "Row.id")) :=
  ⟨(finalize_unique_constraint_detection 19 uniqueMsgEx (by decide)).1 (by rfl),
   (finalize_unique_constraint_detection 19 "no such table: Row" (by decide)).2.1 (by rfl),
   (finalize_unique_constraint_detection 19 uniqueMsgEx (by decide)).2.2.1
     .stepError 0 0 uniqueMsgEx "Row.id",
   (finalize_unique_constraint_detection 19 uniqueMsgEx (by decide)).2.2.2.1
     Unit uniqueMsgEx "Row.id"⟩

/-! ## Accessor arguments from bind-parameter names

`fn_tokens` (src/static_sqlite_macros/src/lib.rs lines 404-474) reads
the statement's declared bind-parameter names from the oracle, strips
the first `":"` occurrence from each (`input.replacen(":", "", 1)`),
classifies each through `parse_type_hinted_column_name`, and emits one
typed function argument per name, in order.  The argument's Rust type
comes from `create_fn_argument_type` (lines 529-541, `unimplemented!`
embedded as an error). -/

/-- The Rust surface types an argument or field can get. -/
inductive RustType
  | vecU8
  | i64Ty
  | f64Ty
  | stringTy
  | implToString
deriving DecidableEq, Repr

/-- `create_fn_argument_type(fieldname, column_type)`. -/
def createFnArgumentType (columnType : String) : Except String RustType :=
  match columnType with
  | "BLOB" => .ok .vecU8
  | "INTEGER" => .ok .i64Ty
  | "REAL" => .ok .f64Ty
  | "DOUBLE" => .ok .f64Ty
  | "TEXT" => .ok .implToString
  | t => .error ("type not supported for fn arg: " ++ t)

/-- One generated accessor argument: its name, whether it is
`Option`-typed, and its carrier type. -/
structure FnArg where
  name : String
  optional : Bool
  argType : RustType
deriving DecidableEq, Repr

/-- Rust `input.replacen(":", "", 1)`: remove the first occurrence of
the one-character pattern. -/
def removeFirstColonChars : List Char → List Char
  | [] => []
  | c :: cs => if c == ':' then cs else c :: removeFirstColonChars cs

def stripFirstColon (s : String) : String := ⟨removeFirstColonChars s.data⟩

/-- The argument `fn_tokens` builds for one (already stripped) input
name: hinted tokens are named by the full alias and typed by the hint;
schema-row tokens are named by the column and typed by the column
type. -/
def argOfInput (rows : List SchemaRow) (input : String) : Except String FnArg :=
  match parseTypeHintedColumnName input rows with
  | .error e => .error e
  | .ok (.fromTypeHint hint) =>
    match createFnArgumentType hint.column_type with
    | .error e => .error e
    | .ok ty => .ok ⟨hint.aliasName, hint.not_null == 0, ty⟩
  | .ok (.fromSchemaRow row) =>
    match createFnArgumentType row.column_type with
    | .error e => .error e
    | .ok ty => .ok ⟨row.column_name, row.pk == 0 && row.not_null == 0, ty⟩

/-- The full argument list of one generated accessor, from the
declared bind-parameter names in declaration order. -/
def genFnArgs (bindNames : List String) (rows : List SchemaRow) :
    Except String (List FnArg) :=
  (bindNames.map stripFirstColon).mapM (argOfInput rows)

theorem mapM_ok_spec {α β : Type} (f : α → Except String β) (l : List α) :
    ∀ (out : List β), l.mapM f = .ok out →
      out.length = l.length
      ∧ ∀ (i : Nat) (hi : i < out.length) (hl : i < l.length),
          f l[i] = .ok out[i] := by
  induction l with
  | nil =>
    intro out h
    rw [List.mapM_nil] at h
    rw [show (pure ([] : List β) : Except String (List β)) = Except.ok [] from rfl,
      Except.ok.injEq] at h
    subst h
    exact ⟨rfl, fun i hi hl => absurd hi (by simp)⟩
  | cons a l ih =>
    intro out h
    rw [List.mapM_cons] at h
    cases hfa : f a with
    | error e => rw [hfa] at h; exact Except.noConfusion h
    | ok x =>
      rw [hfa] at h
      cases hml : l.mapM f with
      | error e =>
        rw [hml] at h
        exact Except.noConfusion h
      | ok xs =>
        rw [hml] at h
        rw [show ((Except.ok x : Except String β) >>= fun x =>
            (Except.ok xs : Except String (List β)) >>= fun xs =>
            pure (x :: xs)) = Except.ok (x :: xs) from rfl] at h
        rw [Except.ok.injEq] at h
        subst h
        rcases ih xs hml with ⟨hlen, hidx⟩
        refine ⟨by simpa using hlen, ?_⟩
        intro i hi hl
        cases i with
        | zero => simpa using hfa
        | succ j =>
          have hj : j < xs.length := by simpa using hi
          have hj' : j < l.length := by simpa using hl
          simpa using hidx j hj hj'

/-- C8: whenever `fn_tokens` succeeds, the generated accessor takes
exactly one argument per declared bind-parameter name, in declaration
order: the i-th argument is built from the i-th bind name with its
first `":"` removed — and for a name that starts with the `":"` sigil,
the removal strips exactly that leading sigil. -/
theorem accessor_args_per_bind_name (bindNames : List String)
    (rows : List SchemaRow) (args : List FnArg)
    (h : genFnArgs bindNames rows = .ok args) :
    args.length = bindNames.length
    ∧ (∀ (i : Nat) (hi : i < args.length) (hb : i < bindNames.length),
        argOfInput rows (stripFirstColon bindNames[i]) = .ok args[i])
    ∧ (∀ t : String, stripFirstColon (":" ++ t) = t) := by
  rcases mapM_ok_spec (argOfInput rows) (bindNames.map stripFirstColon) args h
    with ⟨hlen, hidx⟩
  refine ⟨by simpa using hlen, ?_, ?_⟩
  · intro i hi hb
    have := hidx i hi (by simpa using hb)
    simpa using this
  · intro t
    unfold stripFirstColon
    rw [String.data_append]
    show String.mk (removeFirstColonChars (':' :: t.data)) = t
    rw [show removeFirstColonChars (':' :: t.data) = t.data from rfl]

/-- Witness for `accessor_args_per_bind_name`: the bind names
`[":id", ":note__TEXT__NULLABLE"]` against a schema containing an
`id INTEGER PRIMARY KEY` column generate exactly two arguments in
declaration order. -/
theorem accessor_args_per_bind_name_witness :
    (genFnArgs [":id", ":note__TEXT__NULLABLE"]
        [⟨"t", "id", "INTEGER", 0, 1⟩]).map List.length = .ok 2
    ∧ stripFirstColon (":" ++ "id") = "id" := by
  have h : genFnArgs [":id", ":note__TEXT__NULLABLE"] [⟨"t", "id", "INTEGER", 0, 1⟩]
      = .ok [⟨"id", false, .i64Ty⟩,
             ⟨"note__TEXT__NULLABLE", true, .implToString⟩] := by rfl
  have hmain := accessor_args_per_bind_name [":id", ":note__TEXT__NULLABLE"]
    [⟨"t", "id", "INTEGER", 0, 1⟩]
    [⟨"id", false, .i64Ty⟩, ⟨"note__TEXT__NULLABLE", true, .implToString⟩] h
  refine ⟨?_, hmain.2.2 "id"⟩
  rw [h, Except.map, hmain.1]
  rfl

/-! ## Schema model fold and entity struct field order

`db_schema` (src/static_sqlite_macros/src/schema.rs lines 63-159)
folds the migration statements into a map `Table -> Vec<Column>`.  The
Rust `Column` keeps a reference to the defining `ColumnDef` plus
`placeholder`/`alias` slots (the file sits outside the crate's module
tree — lib.rs declares only `mod errors; mod names;` — and its
`AddColumn` arm omits the `alias` initializer; it is modelled as
`none`, the value every other arm uses).  The `HashMap` is embedded as
an association list with unique keys: `insert` replaces, `get_mut`
modifies in place, `remove` deletes. -/

/-- `schema::Column`: the field `def` is rendered `defn`, `alias` is
rendered `aliasCol` (Lean keywords). -/
structure SchemaColumn where
  name : String
  defn : Option ColumnDef
  placeholder : Option String
  aliasCol : Option String
deriving DecidableEq, Repr

abbrev SchemaMap := List (String × List SchemaColumn)

/-- `HashMap::insert` (replace the value under an existing key). -/
def mapInsert : SchemaMap → String → List SchemaColumn → SchemaMap
  | [], k, v => [(k, v)]
  | (k', v') :: rest, k, v =>
    if k' == k then (k', v) :: rest else (k', v') :: mapInsert rest k v

/-- `HashMap::get` -/
def mapLookup : SchemaMap → String → Option (List SchemaColumn)
  | [], _ => none
  | (k', v) :: rest, k => if k' == k then some v else mapLookup rest k

/-- `HashMap::get_mut` followed by an in-place update; absent keys are
left untouched (the `None => {}` arms). -/
def mapModify : SchemaMap → String → (List SchemaColumn → List SchemaColumn) → SchemaMap
  | [], _, _ => []
  | (k', v) :: rest, k, f =>
    if k' == k then (k', f v) :: rest else (k', v) :: mapModify rest k f

/-- `HashMap::remove` -/
def mapRemove : SchemaMap → String → SchemaMap
  | [], _ => []
  | (k', v) :: rest, k =>
    if k' == k then rest else (k', v) :: mapRemove rest k

/-- The `RenameColumn` arm of `db_schema`: find the position of the
old name, `remove` the column there, rename it and `push` it to the
end; when the old name is absent, do nothing. -/
def renameColumnInList (oldName newName : String) : List SchemaColumn → List SchemaColumn
  | [] => []
  | c :: cs =>
    if c.name == oldName then cs ++ [{ c with name := newName }]
    else c :: renameColumnInList oldName newName cs

/-- One `AlterTableOperation` of the `AlterTable` arm of `db_schema`
(the `todo!()` on `AddColumn` against an unknown table is an error). -/
def dbAlterOp (name : String) (m : SchemaMap) (op : AlterOp) : Except String SchemaMap :=
  match op with
  | .addColumn columnDef =>
    match mapLookup m name with
    | some _ =>
      .ok (mapModify m name (fun cols => cols ++ [⟨columnDef.name, some columnDef, none, none⟩]))
    | none => .error "todo: add column to unknown table"
  | .dropColumn columnName =>
    .ok (mapModify m name (fun cols => cols.filter (fun c => !(c.name == columnName))))
  | .renameColumn oldName newName =>
    .ok (mapModify m name (renameColumnInList oldName newName))
  | .renameTable tableName =>
    match mapLookup m name with
    | some columns => .ok (mapInsert (mapRemove m name) tableName columns)
    | none => .ok m
  | .otherOp => .ok m

/-- One statement of the `db_schema` fold. -/
def dbSchemaStep (m : SchemaMap) (stmt : RStatement) : Except String SchemaMap :=
  match stmt with
  | .createTable name columns =>
    .ok (mapInsert m name (columns.map (fun col => ⟨col.name, some col, none, none⟩)))
  | .alterTable name operations => operations.foldlM (dbAlterOp name) m
  | .dropStmt objectType names =>
    match objectType with
    | .table =>
      match names.head? with
      | some name => .ok (mapRemove m name)
      | none => .error "drop statement requires a name"
    | .otherObject => .error "todo: drop of non-table object"
  | _ => .ok m

/-- `db_schema(migrate_expr)`: fold the migration statements in order
over the empty map. -/
def dbSchema (stmts : List RStatement) : Except String SchemaMap :=
  stmts.foldlM dbSchemaStep []

/-- The field name `struct_tokens` gives a token
(src/static_sqlite_macros/src/lib.rs lines 670-673). -/
def tokenFieldName : TypedToken → String
  | .fromTypeHint hint => hint.name
  | .fromSchemaRow row => row.column_name

/-- The ordered field names of the struct `struct_tokens` emits: one
field per typed token, in token order. -/
def structFieldNames (tokens : List TypedToken) : List String :=
  tokens.map tokenFieldName

/-- Modelled from the spec: the entity structs are generated by
`structs_tokens` from `schema(&db)`
(src/static_sqlite_macros/src/lib.rs lines 327-355 and 648-660), the
live introspection of the ephemeral SQLite database, which is external
to the crate.  Spec §4.2 fixes the introspection order to
`(table_name, ordinal)` and §4.5 makes the Schema Model fold the
emitter's representation of the Oracle's ground truth, cross-checked
against it; the Oracle's per-table answer is therefore modelled as the
Schema Model's column list, each column rendered as the introspection
row `(table_name, column_name, type, not_null, pk)` (the constraint
flags, irrelevant to ordering, are not modelled and read `0`). -/
def oracleTableRows (stmts : List RStatement) (tableName : String) :
    Option (List SchemaRow) :=
  match dbSchema stmts with
  | .ok m =>
    (mapLookup m tableName).map (fun cols => cols.map (fun c =>
      ⟨tableName, c.name,
        (match c.defn with | some d => d.dataType | none => ""), 0, 0⟩))
  | .error _ => none

/-- The ordered field names of the generated entity struct for one
table: `structs_tokens` turns every introspection row into a
`FromSchemaRow` token and emits the fields in that order. -/
def entityFieldNames (stmts : List RStatement) (tableName : String) :
    Option (List String) :=
  (oracleTableRows stmts tableName).map
    (fun rows => structFieldNames (rows.map .fromSchemaRow))

theorem mapLookup_mapModify (m : SchemaMap) (k : String)
    (f : List SchemaColumn → List SchemaColumn) :
    mapLookup (mapModify m k f) k = (mapLookup m k).map f := by
  induction m with
  | nil => rfl
  | cons kv rest ih =>
    obtain ⟨k', v⟩ := kv
    unfold mapModify mapLookup
    by_cases hk : (k' == k)
    · simp [hk]
    · simp only [hk, Bool.false_eq_true, if_false]
      exact ih

theorem renameColumnInList_found (a b : String) (ys : List SchemaColumn) (c : SchemaColumn)
    (hc : c.name = a) :
    ∀ (xs : List SchemaColumn), (∀ x ∈ xs, x.name ≠ a) →
      renameColumnInList a b (xs ++ c :: ys) = xs ++ ys ++ [{ c with name := b }] := by
  intro xs
  induction xs with
  | nil =>
    intro _
    rw [List.nil_append]
    simp only [renameColumnInList]
    rw [if_pos (beq_iff_eq.mpr hc)]
    simp
  | cons x xs ih =>
    intro hxs
    have hx : (x.name == a) = false :=
      beq_eq_false_iff_ne.mpr (hxs x (List.mem_cons_self _ _))
    rw [List.cons_append]
    simp only [renameColumnInList]
    rw [if_neg (by simp [hx])]
    rw [ih (fun y hy => hxs y (List.mem_cons_of_mem _ hy))]
    simp

theorem dbSchema_snoc (pre : List RStatement) (s : RStatement) (m : SchemaMap)
    (hpre : dbSchema pre = .ok m) :
    dbSchema (pre ++ [s]) = dbSchemaStep m s := by
  unfold dbSchema at hpre ⊢
  rw [List.foldlM_append, hpre]
  rw [show ((Except.ok m : Except String SchemaMap) >>= fun init =>
      List.foldlM dbSchemaStep init [s]) = List.foldlM dbSchemaStep m [s] from rfl]
  rw [List.foldlM_cons]
  rw [show (List.foldlM dbSchemaStep · ([] : List RStatement)) = pure from rfl]
  exact bind_pure _

theorem entityFieldNames_ok (stmts : List RStatement) (T : String) (m : SchemaMap)
    (h : dbSchema stmts = .ok m) :
    entityFieldNames stmts T
      = (mapLookup m T).map (fun cols => cols.map SchemaColumn.name) := by
  simp only [entityFieldNames, oracleTableRows, h]
  cases mapLookup m T with
  | none => rfl
  | some cols =>
    simp only [Option.map_some']
    rw [Option.some.injEq]
    simp [structFieldNames, tokenFieldName, List.map_map, Function.comp]

/-- C7: when the migration contains `ALTER TABLE T RENAME COLUMN a TO
b`, the Schema Model removes the (first) column named `a` from its
position and appends it, renamed `b`, at the end of `T`'s column list
— and the field order of the generated entity struct for `T` shows
exactly that: all other columns first, the renamed column last. -/
theorem rename_column_field_order (pre : List RStatement) (T a b : String)
    (m : SchemaMap) (xs ys : List SchemaColumn) (c : SchemaColumn)
    (hpre : dbSchema pre = .ok m)
    (hT : mapLookup m T = some (xs ++ c :: ys))
    (hc : c.name = a)
    (hxs : ∀ x ∈ xs, x.name ≠ a) :
    entityFieldNames (pre ++ [.alterTable T [.renameColumn a b]]) T
      = some ((xs ++ ys).map SchemaColumn.name ++ [b]) := by
  have hstep : dbSchema (pre ++ [.alterTable T [.renameColumn a b]])
      = .ok (mapModify m T (renameColumnInList a b)) := by
    rw [dbSchema_snoc pre _ m hpre]
    rfl
  rw [entityFieldNames_ok _ T _ hstep]
  rw [mapLookup_mapModify, hT]
  rw [Option.map_some']
  rw [renameColumnInList_found a b ys c hc xs hxs]
  simp [List.map_append]

/-- The concrete migration for the `rename_column_field_order`
witness. -/
def preEx : List RStatement :=
  [.createTable "User" [⟨"id", "INTEGER"⟩, ⟨"email", "TEXT"⟩]]

/-- Witness for `rename_column_field_order`: renaming `User.id` to
`uid` makes `uid` the last field of the generated `User` struct. -/
theorem rename_column_field_order_witness :
    entityFieldNames (preEx ++ [.alterTable "User" [.renameColumn "id" "uid"]]) "User"
      = some ["email", "uid"] :=
  rename_column_field_order preEx "User" "id" "uid"
    [("User", [⟨"id", some ⟨"id", "INTEGER"⟩, none, none⟩,
               ⟨"email", some ⟨"email", "TEXT"⟩, none, none⟩])]
    [] [⟨"email", some ⟨"email", "TEXT"⟩, none, none⟩]
    ⟨"id", some ⟨"id", "INTEGER"⟩, none, none⟩
    (by rfl) (by rfl) rfl (by simp)

/-! ## `Value` conversions

`static_sqlite_core::Value` (src/static_sqlite_core/src/ffi.rs lines
426-433) and its `From`/`TryFrom` impls (lines 448-609).  `f64` is
embedded by its bit pattern (no claim computes with reals); `Vec<u8>`
as `List UInt8`; `i64` as `Int`. -/

/-- An `f64` value, identified by its bit pattern. -/
structure F64 where
  bits : UInt64
deriving DecidableEq, Repr

inductive Value
  | text (s : String)
  | integer (n : Int)
  | real (r : F64)
  | blob (b : List UInt8)
  | null
deriving DecidableEq, Repr

/-- `impl TryFrom<Value> for String` -/
def tryFromValueString : Value → Except SqlError String
  | .text s => .ok s
  | _ => .error (.sqlite "column type mismatch")

/-- `impl TryFrom<Value> for i64` -/
def tryFromValueI64 : Value → Except SqlError Int
  | .integer n => .ok n
  | _ => .error (.sqlite "column type mismatch")

/-- `impl TryFrom<Value> for Vec<u8>` -/
def tryFromValueBlob : Value → Except SqlError (List UInt8)
  | .blob b => .ok b
  | _ => .error (.sqlite "column type mismatch")

/-- `impl TryFrom<Value> for Option<String>` -/
def tryFromValueOptString : Value → Except SqlError (Option String)
  | .text s => .ok (some s)
  | .null => .ok none
  | _ => .error (.sqlite "column type mismatch")

/-- `impl TryFrom<Value> for Option<i64>` -/
def tryFromValueOptI64 : Value → Except SqlError (Option Int)
  | .integer n => .ok (some n)
  | .null => .ok none
  | _ => .error (.sqlite "column type mismatch")

/-- `impl TryFrom<Value> for Option<Vec<u8>>` -/
def tryFromValueOptBlob : Value → Except SqlError (Option (List UInt8))
  | .blob b => .ok (some b)
  | .null => .ok none
  | _ => .error (.sqlite "column type mismatch")

/-- `impl From<String> for Value` -/
def valueOfString (s : String) : Value := .text s

/-- `impl From<i64> for Value` -/
def valueOfI64 (n : Int) : Value := .integer n

/-- `impl From<Vec<u8>> for Value` -/
def valueOfBlob (b : List UInt8) : Value := .blob b

/-- `impl From<Option<String>> for Value` -/
def valueOfOptString : Option String → Value
  | some s => .text s
  | none => .null

/-- `impl From<Option<i64>> for Value` -/
def valueOfOptI64 : Option Int → Value
  | some n => .integer n
  | none => .null

/-- `impl From<Option<Vec<u8>>> for Value` -/
def valueOfOptBlob : Option (List UInt8) → Value
  | some b => .blob b
  | none => .null

/-- C10: converting any supported carrier value into `Value` and back
through `TryFrom` returns the value unchanged; in particular `None`
converts to `Value::Null` and back to `Ok(None)`. -/
theorem value_roundtrip (s : String) (n : Int) (b : List UInt8)
    (os : Option String) (oi : Option Int) (ob : Option (List UInt8)) :
    tryFromValueString (valueOfString s) = .ok s
    ∧ tryFromValueI64 (valueOfI64 n) = .ok n
    ∧ tryFromValueBlob (valueOfBlob b) = .ok b
    ∧ tryFromValueOptString (valueOfOptString os) = .ok os
    ∧ tryFromValueOptI64 (valueOfOptI64 oi) = .ok oi
    ∧ tryFromValueOptBlob (valueOfOptBlob ob) = .ok ob
    ∧ valueOfOptString none = .null
    ∧ tryFromValueOptString .null = .ok none := by
  refine ⟨rfl, rfl, rfl, ?_, ?_, ?_, rfl, rfl⟩
  · cases os <;> rfl
  · cases oi <;> rfl
  · cases ob <;> rfl
